import Mathlib

/-!
Shallow embedding of the VM orchestration core of the `rjvm` repository
(`src/vm/src/vm.rs`, `src/vm/src/value.rs`, `src/vm/src/exceptions.rs`),
together with spec-modelled stand-ins for the collaborator modules that are
referenced from those files but whose sources are not part of the verified
tree (class manager, call stack, allocator, native-method registry, clock).
-/

namespace Rjvm

/-- Class identifiers, `ClassId` in `class.rs`: a numeric id assigned at
class-loading time. -/
abbrev ClassId := Nat

/-- The name of the class-initializer method, `"<clinit>"`. -/
def clinitName : String := "<clinit>"

/-- The descriptor of a no-argument, no-return method, `"()V"`. -/
def voidDescriptor : String := "()V"

/-- The descriptor of a no-argument, `long`-returning method, `"()J"`. -/
def longDescriptor : String := "()J"

/-- The class name `"java/lang/Object"`. -/
def objectClassName : String := "java/lang/Object"

/-- The class name `"java/lang/System"`. -/
def systemClassName : String := "java/lang/System"

/-- The method name `"registerNatives"`. -/
def registerNativesName : String := "registerNatives"

/-- The method name `"nanoTime"`. -/
def nanoTimeName : String := "nanoTime"

/-- The method name `"currentTimeMillis"`. -/
def currentTimeMillisName : String := "currentTimeMillis"

/-- The method name under which the diagnostic print hook is reachable. -/
def tempPrintName : String := "tempPrint"

/-- Primitive base types, `BaseType` from `rjvm_reader::field_type`
(not under `src/`); the eight cases are fixed by their exhaustive use in
`ObjectValue::new` (`value.rs` lines 39-48). -/
inductive BaseType where
  | Byte
  | Char
  | Double
  | Float
  | Int
  | Long
  | Short
  | Boolean
deriving DecidableEq, Repr

/-- Field types, `FieldType` from `rjvm_reader::field_type` (not under
`src/`): a primitive base type, an object type carrying a class name, or an
array type carrying its element type. -/
inductive FieldType where
  | Base (baseType : BaseType)
  | Object (className : String)
  | Array (elementType : FieldType)
deriving DecidableEq, Repr

/-- Modelled from the spec: `vm_error.rs` is not under `src/`. The variants
are the ones exercised by `vm.rs`: stack/type validation failures, a native
method without registered implementation, and class-not-found (carrying the
class name). -/
inductive VmError where
  | ValidationException
  | NotImplemented
  | ClassNotFoundException (className : String)
deriving DecidableEq, Repr

/-- Modelled from the spec: `value_stack.rs` is not under `src/`. The spec
describes value-stack-level failures as "underflow, type mismatch". -/
inductive ValueStackError where
  | Underflow
  | TypeMismatch
deriving DecidableEq, Repr

/-- A reference to a heap object, `ObjectRef<'a> = &'a ObjectValue<'a>` in
`value.rs`. The borrow is modelled as the index of the object in the
allocator arena plus the (immutable) class identity of the referenced
object, which the Rust reference reaches as `object_ref.class_id`. -/
structure ObjectRef where
  addr : Nat
  classId : ClassId
deriving DecidableEq, Repr

/-- A reference to a shared mutable array, `ArrayRef<'a>` in `value.rs`
(`Rc<RefCell<Vec<Value>>>`): modelled by the identity of the shared cell. -/
abbrev ArrayRef := Nat

/-- Runtime values, `Value` in `value.rs`. The `f32`/`f64` payloads are
modelled as rationals: the embedded code contains no floating-point
arithmetic, only the zero literals used by field initialization. -/
inductive Value where
  | Uninitialized
  | Int (v : Int)
  | Long (v : Int)
  | Float (v : Rat)
  | Double (v : Rat)
  | Object (ref : ObjectRef)
  | Null
  | Array (elementType : FieldType) (ref : ArrayRef)
deriving DecidableEq, Repr

/-- A class field; from `class.rs` (not under `src/`), only the declared
type is consumed by the embedded code (`field.type_descriptor`). -/
structure Field where
  name : String
  typeDescriptor : FieldType
deriving DecidableEq, Repr

/-- A class method; from `class.rs` (not under `src/`). `vm.rs` consumes
the name, the type descriptor and the `is_native()` flag; `numLocals` is
the local-slot budget used by the spec-modelled frame-construction check. -/
structure Method where
  name : String
  typeDescriptor : String
  isNative : Bool
  numLocals : Nat
deriving DecidableEq, Repr

/-- A class, `Class` in `class.rs` (not under `src/`): id, name, optional
superclass, declared fields and methods, modelled from the spec's data
model. The superclass is nested so that ancestor chains are finite. -/
inductive Class where
  | mk (id : ClassId) (name : String) (superclass : Option Class)
       (fields : List Field) (methods : List Method)

/-- The numeric id of a class. -/
def Class.id : Class → ClassId
  | ⟨i, _, _, _, _⟩ => i

/-- The binary name of a class. -/
def Class.name : Class → String
  | ⟨_, n, _, _, _⟩ => n

/-- The superclass of a class, if any. -/
def Class.superclass : Class → Option Class
  | ⟨_, _, s, _, _⟩ => s

/-- The fields declared by the class itself. -/
def Class.ownFields : Class → List Field
  | ⟨_, _, _, fs, _⟩ => fs

/-- The methods declared by the class. -/
def Class.methods : Class → List Method
  | ⟨_, _, _, _, ms⟩ => ms

/-- Modelled from the spec: the flattened positional field layout — "own
fields plus all inherited fields, flattened into a stable positional
layout computed once at class linking" (§3), superclass fields first. -/
def Class.allFields : Class → List Field
  | ⟨_, _, none, fs, _⟩ => fs
  | ⟨_, _, some s, fs, _⟩ => Class.allFields s ++ fs

/-- `class.num_total_fields`: the length of the flattened field layout. -/
def Class.numTotalFields (c : Class) : Nat :=
  c.allFields.length

/-- `class.field_at_index(index)`: positional access into the flattened
field layout. -/
def Class.fieldAtIndex (c : Class) (index : Nat) : Option Field :=
  c.allFields.get? index

/-- Modelled from the spec: `class.find_method(name, descriptor)`
(`class.rs` is not under `src/`) — exact name-and-descriptor lookup among
the class's methods, as used for the `<clinit>` lookup of §4.4. -/
def Class.findMethod (c : Class) (methodName : String) (descriptor : String) :
    Option Method :=
  c.methods.find? fun m => m.name == methodName && m.typeDescriptor == descriptor

/-- The proper ancestors of a class: its superclass chain, nearest first. -/
def Class.properAncestors : Class → List Class
  | ⟨_, _, none, _, _⟩ => []
  | ⟨_, _, some s, _, _⟩ => s :: Class.properAncestors s

/-- A heap object, `ObjectValue` in `value.rs`: class identity plus the
mutable field vector (the `RefCell` indirection is modelled away; mutation
is explicit state passing). -/
structure ObjectValue where
  classId : ClassId
  fields : List Value
deriving DecidableEq, Repr

/-- The zero value a declared field type is initialized to; this match is
the body of the closure inside `ObjectValue::new` (`value.rs` lines
38-51). -/
def zeroFieldValue : FieldType → Value
  | .Base .Byte => .Int 0
  | .Base .Char => .Int 0
  | .Base .Double => .Double 0
  | .Base .Float => .Float 0
  | .Base .Int => .Int 0
  | .Base .Long => .Long 0
  | .Base .Short => .Int 0
  | .Base .Boolean => .Int 0
  | .Object _ => .Null
  | .Array _ => .Null

/-- `ObjectValue::new(class)` (`value.rs` lines 34-58): a field vector of
length `num_total_fields`, each slot zero-initialized from the declared
type of the field at that index. The `none` branch models the source's
`unwrap()` and is unreachable for indices below `num_total_fields`. -/
def ObjectValue.new (cls : Class) : ObjectValue :=
  { classId := cls.id
    fields := (List.range cls.numTotalFields).map fun index =>
      match cls.fieldAtIndex index with
      | some field => zeroFieldValue field.typeDescriptor
      | none => Value.Uninitialized }

/-- `ObjectValue::set_field(index, value)`: positional, unchecked store. -/
def ObjectValue.setField (o : ObjectValue) (index : Nat) (value : Value) :
    ObjectValue :=
  { o with fields := o.fields.set index value }

/-- `ObjectValue::get_field(index)`: positional read; the source panics on
an out-of-range index, modelled as `none`. -/
def ObjectValue.getField (o : ObjectValue) (index : Nat) : Option Value :=
  o.fields.get? index

/-- `Value::matches_type(expected_type, class_resolver)` (`value.rs` lines
73-119): structural compatibility between a runtime value and a declared
type. -/
def Value.matchesType (v : Value) (expectedType : FieldType)
    (classResolver : ClassId → Option Class) : Bool :=
  match v with
  | .Uninitialized => false
  | .Int _ =>
    match expectedType with
    | .Base baseType => baseType == .Int
    | _ => false
  | .Long _ =>
    match expectedType with
    | .Base baseType => baseType == .Long
    | _ => false
  | .Float _ =>
    match expectedType with
    | .Base baseType => baseType == .Float
    | _ => false
  | .Double _ =>
    match expectedType with
    | .Base baseType => baseType == .Double
    | _ => false
  | .Object objectRef =>
    match expectedType with
    | .Object className =>
      match classResolver objectRef.classId with
      | some classRef => classRef.name == className
      | none => false
    | _ => false
  | .Null => false
  | .Array fieldType _ =>
    match expectedType with
    | .Array expectedFieldType => fieldType == expectedFieldType
    | _ => false

/-- A guest-thrown exception, `JavaException` in `exceptions.rs`: wraps a
reference to the thrown heap object. -/
structure JavaException where
  javaExceptionObject : ObjectRef
deriving DecidableEq, Repr

/-- The unified method-invocation failure wrapper, `MethodCallFailed` in
`exceptions.rs` lines 3-7: exactly one of an internal engine error or a
guest-thrown exception. -/
inductive MethodCallFailed where
  | InternalError (e : VmError)
  | ExceptionThrown (e : JavaException)
deriving DecidableEq, Repr

/-- `impl From<VmError> for MethodCallFailed` (`exceptions.rs` lines
9-13). -/
def MethodCallFailed.ofVmError (e : VmError) : MethodCallFailed :=
  .InternalError e

/-- `impl From<ValueStackError> for MethodCallFailed` (`exceptions.rs`
lines 16-20): every value-stack failure is coerced to an internal
`ValidationException`. -/
def MethodCallFailed.ofValueStackError (_ : ValueStackError) : MethodCallFailed :=
  .InternalError .ValidationException

/-- `ClassAndMethod` (`class_and_method.rs`, not under `src/`): the
immutable pairing of a resolved class and one of its methods (the Rust
fields are `class` and `method`; `class` is a reserved word here). -/
structure ClassAndMethod where
  cls : Class
  method : Method

/-- One call frame (`call_stack.rs`, not under `src/`): the execution
context of a single method activation — method, receiver, arguments. -/
structure Frame where
  classAndMethod : ClassAndMethod
  receiver : Option ObjectRef
  args : List Value

/-- The per-thread call stack: a stack of frames, top first. -/
abbrev CallStack := List Frame

/-- Modelled from the spec: `CallStack::add_frame` (`call_stack.rs` is not
under `src/`) — "push a new call frame (method, receiver, arguments) onto
the call stack; frame construction may itself fail (e.g.,
argument-count/slot mismatch) and that failure is reported before any
frame is left on the stack" (§4.5). The mismatch check compares the slots
needed by the receiver and arguments with the method's local-slot
budget. -/
def CallStack.addFrame (stack : CallStack) (classAndMethod : ClassAndMethod)
    (receiver : Option ObjectRef) (args : List Value) :
    Except VmError (Frame × CallStack) :=
  let slotsNeeded := (match receiver with | some _ => 1 | none => 0) + args.length
  if classAndMethod.method.numLocals < slotsNeeded then
    .error .ValidationException
  else
    let frame : Frame := ⟨classAndMethod, receiver, args⟩
    .ok (frame, frame :: stack)

/-- Modelled from the spec: `CallStack::pop_frame` (`call_stack.rs` is not
under `src/`) — removes the top frame; popping an empty stack is a
stack-level validation failure. -/
def CallStack.popFrame : CallStack → Except VmError CallStack
  | [] => .error .ValidationException
  | _ :: rest => .ok rest

/-- The host-supplied native-method implementations that occur in the
repository, defunctionalized: the no-op hooks, the two clock reads and the
diagnostic print hook registered by `Vm::register_natives` (`vm.rs` lines
45-81), plus host callbacks that return a fixed result or a fixed error
(the shape used by the spec's end-to-end test natives). -/
inductive NativeImpl where
  | noop
  | nanoTime
  | currentTimeMillis
  | tempPrint
  | pureResult (result : Option Value)
  | pureError (e : VmError)
deriving DecidableEq, Repr

/-- Modelled from the spec: the native-method registry
(`native_methods.rs` is not under `src/`) — "a mapping keyed by (owning
class name, method name, method descriptor) to a host-implemented
callback" (§4.3), with a dedicated slot for the temporary diagnostic print
hook. -/
structure NativeEntry where
  className : String
  methodName : String
  typeDescriptor : String
  impl : NativeImpl
deriving DecidableEq, Repr

/-- The native-method registry state. -/
structure NativeMethodsRegistry where
  methods : List NativeEntry
  tempPrintCallback : Option NativeImpl
deriving DecidableEq, Repr

/-- The empty registry (`Default` in Rust). -/
def NativeMethodsRegistry.empty : NativeMethodsRegistry :=
  { methods := [], tempPrintCallback := none }

/-- `NativeMethodsRegistry::register`: append-only registration under the
exact (class name, method name, descriptor) triple. -/
def NativeMethodsRegistry.register (reg : NativeMethodsRegistry)
    (className methodName typeDescriptor : String) (impl : NativeImpl) :
    NativeMethodsRegistry :=
  { reg with methods := reg.methods ++ [⟨className, methodName, typeDescriptor, impl⟩] }

/-- `NativeMethodsRegistry::register_temp_print`: installs the diagnostic
print hook in its dedicated slot. -/
def NativeMethodsRegistry.registerTempPrint (reg : NativeMethodsRegistry)
    (impl : NativeImpl) : NativeMethodsRegistry :=
  { reg with tempPrintCallback := some impl }

/-- Modelled from the spec: registry lookup — exact triple match, with the
diagnostic print hook reachable under its dedicated method name (the exact
matching rule for that hook is not under `src/`). -/
def NativeMethodsRegistry.get (reg : NativeMethodsRegistry)
    (className methodName typeDescriptor : String) : Option NativeImpl :=
  if methodName == tempPrintName then
    reg.tempPrintCallback
  else
    (reg.methods.find? fun e =>
      e.className == className && e.methodName == methodName &&
        e.typeDescriptor == typeDescriptor).map NativeEntry.impl

/-- `NativeMethodsRegistry::get_method(class_and_method)`: lookup keyed by
the declaring class name, method name and descriptor of the pair. -/
def NativeMethodsRegistry.getMethod (reg : NativeMethodsRegistry)
    (classAndMethod : ClassAndMethod) : Option NativeImpl :=
  reg.get classAndMethod.cls.name classAndMethod.method.name
    classAndMethod.method.typeDescriptor

/-- Modelled from the spec: the host clock read by the natives of
`time.rs` (not under `src/`) — a snapshot of the nanosecond and
millisecond clocks of the host. -/
structure Clock where
  nanos : Int
  millis : Int
deriving DecidableEq, Repr

/-- The result of a first-resolution request, `ClassesToInitialize` in
`class_manager.rs` (not under `src/`): the resolved class together with
the ordered initialization batch (Rust field `to_initialize`). -/
structure ClassesToInit where
  resolvedClass : Class
  classes : List Class

/-- `ResolvedClass` in `class_manager.rs` (not under `src/`): either a
newly resolved class carrying its initialization batch, or an
already-loaded class. -/
inductive ResolvedClass where
  | newClass (toInit : ClassesToInit)
  | alreadyLoaded (c : Class)

/-- `ResolvedClass::get_class()`: the class the request resolved to. -/
def ResolvedClass.getClass : ResolvedClass → Class
  | .newClass toInit => toInit.resolvedClass
  | .alreadyLoaded c => c

/-- Modelled from the spec: the ordered initialization batch reported on
first resolution — "its own class and, transitively, any not-yet-initialized
ancestors, ordered so that a superclass is initialized strictly before its
subclass" (§4.4). -/
def initBatchFor (loadedIds : List ClassId) : Class → List Class
  | ⟨i, n, sup, fs, ms⟩ =>
    (match sup with
     | some s => if s.id ∈ loadedIds then [] else initBatchFor loadedIds s
     | none => []) ++ [⟨i, n, sup, fs, ms⟩]

/-- Modelled from the spec: the class manager (`class_manager.rs` is not
under `src/`) — the classes reachable on the class path, plus the ids of
the classes already resolved. -/
structure ClassManager where
  available : List Class
  loadedIds : List ClassId

/-- The empty class manager (`Default` in Rust). -/
def ClassManager.empty : ClassManager :=
  { available := [], loadedIds := [] }

/-- Modelled from the spec: `ClassManager::get_or_resolve_class` — "the
class manager returns, for a resolution request, either an already-known
class or a 'newly resolved' marker carrying the ordered initialization
batch" (§6); resolution failure is class-not-found. The batch members are
marked loaded at resolution time, so a later request for the same class
takes the already-loaded path. -/
def ClassManager.getOrResolveClass (cm : ClassManager) (className : String) :
    Except VmError (ResolvedClass × ClassManager) :=
  match cm.available.find? fun c => c.name == className with
  | none => .error (.ClassNotFoundException className)
  | some c =>
    if c.id ∈ cm.loadedIds then
      .ok (.alreadyLoaded c, cm)
    else
      let batch := initBatchFor cm.loadedIds c
      .ok (.newClass ⟨c, batch⟩,
           { cm with loadedIds := cm.loadedIds ++ batch.map Class.id })

/-- The VM orchestrator state, `Vm` in `vm.rs` lines 20-36: class manager,
object allocator (modelled as the arena of allocated objects), static
table, native registry and the inspectable `printed` buffer. The host
clock snapshot consumed by the clock natives is carried alongside. -/
structure Vm where
  classManager : ClassManager
  objectAllocator : List ObjectValue
  statics : List (ClassId × ObjectRef)
  nativeMethodsRegistry : NativeMethodsRegistry
  printed : List Value
  clock : Clock

/-- The frame-execution collaborator contract (§1, §4.5): given the pushed
frame, the VM state and the call stack, bytecode interpretation returns an
optional value or a `VmError`, together with the possibly mutated VM state
and call stack. Opaque to this layer; theorems quantify over it. -/
abbrev ExecuteFn :=
  Frame → Vm → CallStack → (Except VmError (Option Value)) × Vm × CallStack

/-- Evaluation of the defunctionalized native callbacks. The `tempPrint`
body is the closure in `Vm::register_natives` (`vm.rs` lines 46-55):
`args.get(0)` or a `ValidationException`, then push the argument onto
`printed` and return no value. The clock natives return `Long` reads of
the host clock (`vm.rs` lines 69-80, `time.rs` modelled from the spec);
the no-op hooks return no value (`vm.rs` lines 57-68). -/
def runNative (impl : NativeImpl) (vm : Vm) (stack : CallStack)
    (_classAndMethod : ClassAndMethod) (_receiver : Option ObjectRef)
    (args : List Value) : (Except VmError (Option Value)) × Vm × CallStack :=
  match impl with
  | .noop => (.ok none, vm, stack)
  | .nanoTime => (.ok (some (.Long vm.clock.nanos)), vm, stack)
  | .currentTimeMillis => (.ok (some (.Long vm.clock.millis)), vm, stack)
  | .tempPrint =>
    match args.head? with
    | none => (.error .ValidationException, vm, stack)
    | some arg => (.ok none, { vm with printed := vm.printed ++ [arg] }, stack)
  | .pureResult result => (.ok result, vm, stack)
  | .pureError e => (.error e, vm, stack)

/-- `Vm::register_natives` (`vm.rs` lines 45-81): installs the diagnostic
print hook, the two no-op `registerNatives` hooks and the two clock reads,
in source order. -/
def Vm.registerNatives (vm : Vm) : Vm :=
  let r0 := vm.nativeMethodsRegistry.registerTempPrint NativeImpl.tempPrint
  let r1 := r0.register objectClassName registerNativesName voidDescriptor NativeImpl.noop
  let r2 := r1.register systemClassName registerNativesName voidDescriptor NativeImpl.noop
  let r3 := r2.register systemClassName nanoTimeName longDescriptor NativeImpl.nanoTime
  let r4 := r3.register systemClassName currentTimeMillisName longDescriptor
    NativeImpl.currentTimeMillis
  { vm with nativeMethodsRegistry := r4 }

/-- `Vm::new` (`vm.rs` lines 39-43): the default (empty) state with the
built-in natives registered; the host clock snapshot is the modelling
parameter standing for ambient host time. -/
def Vm.new (clock : Clock) : Vm :=
  Vm.registerNatives
    { classManager := ClassManager.empty
      objectAllocator := []
      statics := []
      nativeMethodsRegistry := NativeMethodsRegistry.empty
      printed := []
      clock := clock }

/-- `Vm::get_static_instance` (`vm.rs` lines 83-85): lookup in the static
table. -/
def Vm.getStaticInstance (vm : Vm) (classId : ClassId) : Option ObjectRef :=
  (vm.statics.find? fun p => p.1 == classId).map Prod.snd

/-- `Vm::new_object_of_class` (`vm.rs` lines 183-186), with the allocator
(`gc.rs`, not under `src/`) modelled from the spec: "allocate a
zero-initialized object of a given class, return a stable reference" (§1);
zero-initialization is `ObjectValue::new` from `value.rs`. -/
def Vm.newObjectOfClass (vm : Vm) (cls : Class) : ObjectRef × Vm :=
  (⟨vm.objectAllocator.length, cls.id⟩,
   { vm with objectAllocator := vm.objectAllocator ++ [ObjectValue.new cls] })

/-- Read an allocated object through a reference. -/
def Vm.heapGet (vm : Vm) (r : ObjectRef) : Option ObjectValue :=
  vm.objectAllocator.get? r.addr

/-- `Vm::invoke` (`vm.rs` lines 146-172). Native methods dispatch through
the registry (miss is `NotImplemented`); non-native methods push a frame,
delegate to the frame-execution collaborator, and pop the frame before
returning the execution result. The `&mut` receivers are modelled by
returning the VM state and the call stack next to the `Result`. -/
def Vm.invoke (execute : ExecuteFn) (vm : Vm) (callStack : CallStack)
    (classAndMethod : ClassAndMethod) (object : Option ObjectRef)
    (args : List Value) : (Except VmError (Option Value)) × Vm × CallStack :=
  if classAndMethod.method.isNative then
    match vm.nativeMethodsRegistry.getMethod classAndMethod with
    | some nativeCallback =>
      runNative nativeCallback vm callStack classAndMethod object args
    | none => (.error .NotImplemented, vm, callStack)
  else
    match callStack.addFrame classAndMethod object args with
    | .error e => (.error e, vm, callStack)
    | .ok (frame, stack1) =>
      let (result, vm1, stack2) := execute frame vm stack1
      match stack2.popFrame with
      | .error e => (.error e, vm1, stack2)
      | .ok stack3 => (result, vm1, stack3)

/-- The body of the initialization loop of `Vm::get_or_resolve_class`
(`vm.rs` lines 98-116): allocate the static instance, insert it into the
static table under the class id, then — if the class has a `<clinit>` with
descriptor `()V` — invoke it as an ordinary method call with no receiver
and no arguments, propagating failure. -/
def Vm.initClass (execute : ExecuteFn) (vm : Vm) (stack : CallStack)
    (classToInit : Class) : (Except VmError Unit) × Vm × CallStack :=
  let (staticInstance, vm1) := vm.newObjectOfClass classToInit
  let vm2 := { vm1 with statics := (classToInit.id, staticInstance) :: vm1.statics }
  match classToInit.findMethod clinitName voidDescriptor with
  | some clinitMethod =>
    let (result, vm3, stack3) :=
      Vm.invoke execute vm2 stack ⟨classToInit, clinitMethod⟩ none []
    (result.map fun _ => (), vm3, stack3)
  | none => (.ok (), vm2, stack)

/-- The initialization loop of `Vm::get_or_resolve_class` over the batch,
in batch order; the `?` on the `<clinit>` invocation abandons the rest of
the batch on the first failure. -/
def Vm.initClasses (execute : ExecuteFn) (vm : Vm) (stack : CallStack) :
    List Class → (Except VmError Unit) × Vm × CallStack
  | [] => (.ok (), vm, stack)
  | c :: rest =>
    match Vm.initClass execute vm stack c with
    | (.ok _, vm1, stack1) => Vm.initClasses execute vm1 stack1 rest
    | (.error e, vm1, stack1) => (.error e, vm1, stack1)

/-- `Vm::get_or_resolve_class` (`vm.rs` lines 91-119): delegate to the
class manager; on a first resolution, run the initialization loop over the
reported batch; return the resolved class. -/
def Vm.getOrResolveClass (execute : ExecuteFn) (vm : Vm) (stack : CallStack)
    (className : String) : (Except VmError Class) × Vm × CallStack :=
  match vm.classManager.getOrResolveClass className with
  | .error e => (.error e, vm, stack)
  | .ok (resolved, cm1) =>
    let vm1 := { vm with classManager := cm1 }
    match resolved with
    | .newClass toInit =>
      match Vm.initClasses execute vm1 stack toInit.classes with
      | (.ok _, vm2, stack2) =>
        ((.ok (ResolvedClass.newClass toInit).getClass), vm2, stack2)
      | (.error e, vm2, stack2) => (.error e, vm2, stack2)
    | .alreadyLoaded c =>
      ((.ok (ResolvedClass.alreadyLoaded c).getClass), vm1, stack)

/-- `Vm::resolve_class_method` (`vm.rs` lines 125-139): resolve the class,
then look the method up in it; a missing method is reported as
`ClassNotFoundException` carrying the class name. -/
def Vm.resolveClassMethod (execute : ExecuteFn) (vm : Vm) (stack : CallStack)
    (className methodName methodTypeDescriptor : String) :
    (Except VmError ClassAndMethod) × Vm × CallStack :=
  match Vm.getOrResolveClass execute vm stack className with
  | (.ok cls, vm1, stack1) =>
    match cls.findMethod methodName methodTypeDescriptor with
    | some method => (.ok ⟨cls, method⟩, vm1, stack1)
    | none => (.error (.ClassNotFoundException className), vm1, stack1)
  | (.error e, vm1, stack1) => (.error e, vm1, stack1)

/-- A trivial frame-execution collaborator: returns no value and leaves
the VM state and call stack untouched. Used to instantiate theorems that
quantify over the opaque interpreter. -/
def exec0 : ExecuteFn := fun _ vm stack => (.ok none, vm, stack)

/-- A concrete host-clock snapshot. -/
def clock0 : Clock := { nanos := 100, millis := 7 }

/-- A concrete native method `bar` with descriptor `()I`. -/
def fooBarMethod : Method :=
  { name := "bar", typeDescriptor := "()I", isNative := true, numLocals := 0 }

/-- A concrete method reachable as the diagnostic print hook. -/
def tempPrintMethod : Method :=
  { name := "tempPrint", typeDescriptor := "(Ljava/lang/Object;)V"
    isNative := true, numLocals := 1 }

/-- A concrete class `Foo` declaring the native method `bar`. -/
def fooClass : Class :=
  .mk 10 "Foo" none [] [fooBarMethod, tempPrintMethod]

/-- The dispatch pair for `Foo::bar()I`. -/
def camFooBar : ClassAndMethod := { cls := fooClass, method := fooBarMethod }

/-- The dispatch pair for the diagnostic print hook. -/
def camTempPrint : ClassAndMethod := { cls := fooClass, method := tempPrintMethod }

/-- The name of the sample class `Foo`. -/
def fooName : String := "Foo"

/-- The name of the sample method `bar`. -/
def barName : String := "bar"

/-- The descriptor `()I`. -/
def intReturnDescriptor : String := "()I"

/-- A freshly constructed VM with, additionally, a host native registered
for `(Foo, bar, ()I)` that returns `Int(42)` — the spec's end-to-end test
native. -/
def vmWithFooNative : Vm :=
  { Vm.new clock0 with
      nativeMethodsRegistry :=
        (Vm.new clock0).nativeMethodsRegistry.register fooName barName
          intReturnDescriptor (NativeImpl.pureResult (some (.Int 42))) }

/-- A field of primitive `int` type. -/
def intField : Field := { name := "i", typeDescriptor := .Base .Int }

/-- A field of primitive `double` type. -/
def doubleField : Field := { name := "d", typeDescriptor := .Base .Double }

/-- An object-typed field. -/
def objField : Field := { name := "o", typeDescriptor := .Object objectClassName }

/-- An array-typed field. -/
def arrField : Field := { name := "a", typeDescriptor := .Array (.Base .Int) }

/-- The spec's §8 example class: one `int`, one `double`, one object-typed
and one array-typed field, in that declared order. -/
def fourFieldClass : Class :=
  .mk 20 "Four" none [intField, doubleField, objField, arrField] []

/-- A class with no superclass, no fields and no methods. -/
def simpleClass : Class := .mk 1 "Simple" none [] []

/-- The name of `simpleClass`. -/
def simpleName : String := "Simple"

/-- A VM whose class path reaches `simpleClass`. -/
def vmWithSimple : Vm :=
  { Vm.new clock0 with classManager := { available := [simpleClass], loadedIds := [] } }

/-- A superclass with no members. -/
def parentClass : Class := .mk 2 "Parent" none [] []

/-- A subclass of `parentClass` with no members. -/
def childClass : Class := .mk 3 "Child" (some parentClass) [] []

/-- The name of `childClass`. -/
def childName : String := "Child"

/-- A VM whose class path reaches `childClass` (and through it
`parentClass`). -/
def vmWithChild : Vm :=
  { Vm.new clock0 with classManager := { available := [childClass], loadedIds := [] } }

/-- A `<clinit>()V` method marked native; with no registry entry for it,
invoking it fails with `NotImplemented`. -/
def badClinitMethod : Method :=
  { name := "<clinit>", typeDescriptor := "()V", isNative := true, numLocals := 0 }

/-- A class whose `<clinit>` invocation fails. -/
def badClass : Class := .mk 4 "Bad" none [] [badClinitMethod]

/-- A class positioned after `badClass` in an initialization batch. -/
def afterClass : Class := .mk 5 "After" none [] []

/-- Sundry method name used to probe a missing method. -/
def missingMethodName : String := "missing"

/-- The VM state after the first resolution of `simpleClass`. -/
def vmAfterSimple : Vm :=
  (Vm.getOrResolveClass exec0 vmWithSimple [] simpleName).2.1

/-- The VM state after the first resolution of `childClass`. -/
def vmAfterChild : Vm :=
  (Vm.getOrResolveClass exec0 vmWithChild [] childName).2.1

/-- The VM state after the failing initialization of `badClass` from a
fresh VM. -/
def vmAfterBad : Vm :=
  (Vm.initClass exec0 (Vm.new clock0) [] badClass).2.1

theorem addFrame_ok_shape (stack : CallStack) (cam : ClassAndMethod)
    (obj : Option ObjectRef) (args : List Value) (frame : Frame)
    (stack1 : CallStack) (h : stack.addFrame cam obj args = .ok (frame, stack1)) :
    stack1 = frame :: stack := by
  cases obj with
  | none =>
    simp only [CallStack.addFrame] at h
    split at h
    · exact Except.noConfusion h
    · injection h with hpair
      injection hpair with ha hb
      subst ha
      subst hb
      rfl
  | some r =>
    simp only [CallStack.addFrame] at h
    split at h
    · exact Except.noConfusion h
    · injection h with hpair
      injection hpair with ha hb
      subst ha
      subst hb
      rfl

theorem object_new_getField (cls : Class) (index : Nat) :
    (ObjectValue.new cls).getField index =
      (cls.fieldAtIndex index).map fun f => zeroFieldValue f.typeDescriptor := by
  unfold ObjectValue.getField ObjectValue.new
  cases hf : cls.fieldAtIndex index with
  | some f =>
    have hlt : index < cls.numTotalFields := by
      by_contra hge
      rw [Class.fieldAtIndex, List.get?_eq_none.mpr (le_of_not_lt hge)] at hf
      exact Option.noConfusion hf
    simp only [List.get?_map, List.get?_range hlt, Option.map_some', hf]
  | none =>
    have hge : cls.numTotalFields ≤ index := List.get?_eq_none.mp hf
    have hnone : (List.range cls.numTotalFields).get? index = none :=
      List.get?_eq_none.mpr (by simpa [List.length_range] using hge)
    rw [List.get?_map, hnone]
    rfl

theorem initBatchFor_concat (loadedIds : List ClassId) (c : Class) :
    ∃ l, initBatchFor loadedIds c = l ++ [c] := by
  cases c with
  | mk i n sup fs ms =>
    cases sup with
    | none => exact ⟨[], rfl⟩
    | some s =>
      exact ⟨if s.id ∈ loadedIds then [] else initBatchFor loadedIds s, rfl⟩

theorem initBatchFor_getLast (loadedIds : List ClassId) (c : Class) :
    (initBatchFor loadedIds c).getLast? = some c := by
  obtain ⟨l, hl⟩ := initBatchFor_concat loadedIds c
  rw [hl]
  exact List.getLast?_concat l

theorem self_mem_initBatchFor (loadedIds : List ClassId) (c : Class) :
    c ∈ initBatchFor loadedIds c := by
  obtain ⟨l, hl⟩ := initBatchFor_concat loadedIds c
  rw [hl]
  exact List.mem_append_right l (List.mem_singleton.mpr rfl)

theorem mem_dropLast_initBatchFor (loadedIds : List ClassId) :
    ∀ (c a : Class), a ∈ c.properAncestors →
      (∀ x, x ∈ c.properAncestors → x.id ∈ loadedIds →
        ∀ b, b ∈ x.properAncestors → b.id ∈ loadedIds) →
      a.id ∉ loadedIds →
      a ∈ (initBatchFor loadedIds c).dropLast
  | .mk i n none fs ms, a, hmem, _, _ => by
    simp [Class.properAncestors] at hmem
  | .mk i n (some s) fs ms, a, hmem, hclosed, hnot => by
    simp only [Class.properAncestors, List.mem_cons] at hmem
    show a ∈ ((if s.id ∈ loadedIds then [] else initBatchFor loadedIds s)
      ++ [Class.mk i n (some s) fs ms]).dropLast
    rw [List.dropLast_concat]
    by_cases hs : s.id ∈ loadedIds
    · rcases hmem with heq | hanc
      · exact absurd (heq ▸ hs) hnot
      · exact absurd
          (hclosed s (List.mem_cons_self _ _) hs a hanc) hnot
    · rw [if_neg hs]
      rcases hmem with heq | hanc
      · exact heq ▸ self_mem_initBatchFor loadedIds s
      · exact List.dropLast_subset _
          (mem_dropLast_initBatchFor loadedIds s a hanc
            (fun x hx => hclosed x (List.mem_cons_of_mem _ hx)) hnot)

/-- C6: `matches_type` is exact: each primitive value matches only its own
base type (no widening), an `Object` value matches only when the resolver
maps its class id to a class whose name equals the expected class name, an
`Array` value matches only the array type over its own element-type tag,
and `Null` and `Uninitialized` match nothing. -/
theorem matches_type_exact (resolver : ClassId → Option Class) :
    (∀ (n : Int) (t : FieldType),
        (Value.Int n).matchesType t resolver = true ↔ t = .Base .Int)
    ∧ (∀ (n : Int) (t : FieldType),
        (Value.Long n).matchesType t resolver = true ↔ t = .Base .Long)
    ∧ (∀ (q : Rat) (t : FieldType),
        (Value.Float q).matchesType t resolver = true ↔ t = .Base .Float)
    ∧ (∀ (q : Rat) (t : FieldType),
        (Value.Double q).matchesType t resolver = true ↔ t = .Base .Double)
    ∧ (∀ (r : ObjectRef) (t : FieldType),
        (Value.Object r).matchesType t resolver = true ↔
          ∃ className classRef, t = .Object className
            ∧ resolver r.classId = some classRef ∧ classRef.name = className)
    ∧ (∀ (ft : FieldType) (ar : ArrayRef) (t : FieldType),
        (Value.Array ft ar).matchesType t resolver = true ↔ t = .Array ft)
    ∧ (∀ t : FieldType, Value.Null.matchesType t resolver = false)
    ∧ (∀ t : FieldType, Value.Uninitialized.matchesType t resolver = false) := by
  refine ⟨?_, ?_, ?_, ?_, ?_, ?_, ?_, ?_⟩
  · intro n t
    cases t <;> simp [Value.matchesType, beq_iff_eq]
  · intro n t
    cases t <;> simp [Value.matchesType, beq_iff_eq]
  · intro q t
    cases t <;> simp [Value.matchesType, beq_iff_eq]
  · intro q t
    cases t <;> simp [Value.matchesType, beq_iff_eq]
  · intro r t
    cases t with
    | Base b => simp [Value.matchesType]
    | Array ft => simp [Value.matchesType]
    | Object cn =>
      cases hres : resolver r.classId with
      | none => simp [Value.matchesType, hres]
      | some classRef =>
        simp only [Value.matchesType, hres, beq_iff_eq]
        constructor
        · intro h
          exact ⟨cn, classRef, rfl, rfl, h⟩
        · rintro ⟨cn2, cr2, hteq, hcr, hname⟩
          cases hteq
          cases hcr
          exact hname
  · intro ft ar t
    cases t with
    | Base b => simp [Value.matchesType]
    | Object cn => simp [Value.matchesType]
    | Array eft =>
      simp only [Value.matchesType, beq_iff_eq, FieldType.Array.injEq]
      exact eq_comm
  · intro t
    rfl
  · intro t
    rfl

/-- C7: `ObjectValue::new` builds a field vector whose length is the
class's total field count, where the slot of each declared field is the
zero value of its declared type: byte, char, short, boolean and int fields
to `Int 0`, long fields to `Long 0`, float fields to `Float 0`, double
fields to `Double 0`, and object- or array-typed fields to `Null`, in
declared positional order. -/
theorem object_new_zero_initializes (cls : Class) :
    (ObjectValue.new cls).fields.length = cls.numTotalFields
    ∧ ∀ index : Nat,
        (ObjectValue.new cls).getField index =
          (cls.fieldAtIndex index).map fun field =>
            match field.typeDescriptor with
            | .Base .Byte => Value.Int 0
            | .Base .Char => Value.Int 0
            | .Base .Short => Value.Int 0
            | .Base .Boolean => Value.Int 0
            | .Base .Int => Value.Int 0
            | .Base .Long => Value.Long 0
            | .Base .Float => Value.Float 0
            | .Base .Double => Value.Double 0
            | .Object _ => Value.Null
            | .Array _ => Value.Null := by
  constructor
  · simp [ObjectValue.new, List.length_map, List.length_range]
  · intro index
    rw [object_new_getField]
    cases hf : cls.fieldAtIndex index with
    | none => rfl
    | some f =>
      simp only [Option.map_some']
      rcases f with ⟨fname, ftype⟩
      rcases ftype with b | cn | et
      · cases b <;> rfl
      · rfl
      · rfl

/-- C8: `Vm::new` registers all built-in natives at construction time and
before any class resolution: the two no-op `registerNatives()V` hooks for
`java/lang/Object` and `java/lang/System` (returning no value), the
`nanoTime()J` and `currentTimeMillis()J` clock reads (returning `Long`
reads of the host clock), and the diagnostic print hook appending to the
inspectable `printed` buffer; at construction the static table, the loaded
set and the buffer are all empty. -/
theorem vm_new_registers_builtin_natives (clock : Clock) (vm : Vm)
    (stack : CallStack) (cam : ClassAndMethod) (obj : Option ObjectRef) :
    (Vm.new clock).nativeMethodsRegistry.get objectClassName registerNativesName
        voidDescriptor = some .noop
    ∧ (Vm.new clock).nativeMethodsRegistry.get systemClassName registerNativesName
        voidDescriptor = some .noop
    ∧ (Vm.new clock).nativeMethodsRegistry.get systemClassName nanoTimeName
        longDescriptor = some .nanoTime
    ∧ (Vm.new clock).nativeMethodsRegistry.get systemClassName currentTimeMillisName
        longDescriptor = some .currentTimeMillis
    ∧ (Vm.new clock).nativeMethodsRegistry.tempPrintCallback = some .tempPrint
    ∧ (∀ args, runNative .noop vm stack cam obj args = (.ok none, vm, stack))
    ∧ (∀ args, runNative .nanoTime vm stack cam obj args =
        (.ok (some (.Long vm.clock.nanos)), vm, stack))
    ∧ (∀ args, runNative .currentTimeMillis vm stack cam obj args =
        (.ok (some (.Long vm.clock.millis)), vm, stack))
    ∧ (∀ (a : Value) (rest : List Value),
        runNative .tempPrint vm stack cam obj (a :: rest) =
          (.ok none, { vm with printed := vm.printed ++ [a] }, stack))
    ∧ (Vm.new clock).statics = []
    ∧ (Vm.new clock).classManager.loadedIds = []
    ∧ (Vm.new clock).printed = [] :=
  ⟨rfl, rfl, rfl, rfl, rfl, fun _ => rfl, fun _ => rfl, fun _ => rfl,
   fun _ _ => rfl, rfl, rfl, rfl⟩

/-- C1: for every call to `Vm::invoke` over a depth-preserving
frame-execution collaborator, the call-stack depth after the call equals
the depth before it — the frame pushed for a non-native invocation is
popped whether frame execution succeeded or failed — and when frame
construction itself fails, the failure is reported with the call stack
exactly as it was, so no frame is leaked. -/
theorem invoke_preserves_call_stack_depth (execute : ExecuteFn)
    (hexec : ∀ f vm st, ((execute f vm st).2.2).length = st.length)
    (vm : Vm) (stack : CallStack) (cam : ClassAndMethod)
    (obj : Option ObjectRef) (args : List Value) :
    ((Vm.invoke execute vm stack cam obj args).2.2).length = stack.length
    ∧ (∀ e, cam.method.isNative = false →
        stack.addFrame cam obj args = .error e →
        Vm.invoke execute vm stack cam obj args = (.error e, vm, stack)) := by
  constructor
  · by_cases hn : cam.method.isNative = true
    · cases hl : vm.nativeMethodsRegistry.getMethod cam with
      | none => simp [Vm.invoke, hn, hl]
      | some impl =>
        cases impl <;> cases args <;> simp [Vm.invoke, hn, hl, runNative]
    · have hn2 : cam.method.isNative = false := by
        cases hb : cam.method.isNative
        · rfl
        · exact absurd hb hn
      cases ha : stack.addFrame cam obj args with
      | error e => simp [Vm.invoke, hn2, ha]
      | ok pr =>
        obtain ⟨frame, stack1⟩ := pr
        have hshape := addFrame_ok_shape stack cam obj args frame stack1 ha
        have hlen1 : ((execute frame vm stack1).2.2).length = stack1.length :=
          hexec frame vm stack1
        cases h2 : (execute frame vm stack1).2.2 with
        | nil =>
          exfalso
          rw [h2, hshape] at hlen1
          simp at hlen1
        | cons top rest =>
          rw [h2, hshape] at hlen1
          simp only [List.length_cons, Nat.succ.injEq] at hlen1
          simp [Vm.invoke, hn2, ha, h2, CallStack.popFrame, hlen1]
  · intro e hn2 ha
    simp [Vm.invoke, hn2, ha]

theorem invoke_preserves_call_stack_depth_witness :
    ((Vm.invoke exec0 (Vm.new clock0) [] camFooBar none []).2.2).length
      = ([] : CallStack).length
    ∧ (∀ e, camFooBar.method.isNative = false →
        CallStack.addFrame [] camFooBar none [] = .error e →
        Vm.invoke exec0 (Vm.new clock0) [] camFooBar none []
          = (.error e, Vm.new clock0, [])) :=
  invoke_preserves_call_stack_depth exec0 (fun _ _ _ => rfl)
    (Vm.new clock0) [] camFooBar none []

/-- C4 (evidence): in the embedded code the failure channel of
`Vm::invoke` is the bare `VmError` — invoking an unregistered native
yields `Except.error VmError.NotImplemented` directly, not a
`MethodCallFailed`; the `MethodCallFailed` wrapper of `exceptions.rs`
(exactly an `InternalError` or an `ExceptionThrown`, which are distinct)
is never produced by `invoke`. -/
theorem invoke_failure_channel_is_vm_error :
    Vm.invoke exec0 (Vm.new clock0) [] camFooBar none []
      = (.error VmError.NotImplemented, Vm.new clock0, [])
    ∧ MethodCallFailed.ofVmError VmError.NotImplemented
      = MethodCallFailed.InternalError VmError.NotImplemented
    ∧ MethodCallFailed.InternalError VmError.NotImplemented
      ≠ MethodCallFailed.ExceptionThrown
          { javaExceptionObject := { addr := 0, classId := 0 } } :=
  ⟨rfl, rfl, by decide⟩

/-- C5: for a native method, `invoke` looks up the registry entry of the
declaring class, name and descriptor; a hit runs the callback and returns
its result verbatim, while a miss returns a `NotImplemented` failure with
the call stack (hence its depth) unchanged. -/
theorem invoke_native_dispatch (execute : ExecuteFn) (vm : Vm)
    (stack : CallStack) (cam : ClassAndMethod) (obj : Option ObjectRef)
    (args : List Value) (hnative : cam.method.isNative = true) :
    (∀ impl, vm.nativeMethodsRegistry.getMethod cam = some impl →
        Vm.invoke execute vm stack cam obj args =
          runNative impl vm stack cam obj args)
    ∧ (vm.nativeMethodsRegistry.getMethod cam = none →
        Vm.invoke execute vm stack cam obj args = (.error .NotImplemented, vm, stack)
        ∧ ((Vm.invoke execute vm stack cam obj args).2.2).length = stack.length) := by
  constructor
  · intro impl hl
    simp [Vm.invoke, hnative, hl]
  · intro hl
    refine ⟨?_, ?_⟩
    · simp [Vm.invoke, hnative, hl]
    · simp [Vm.invoke, hnative, hl]

theorem invoke_native_dispatch_witness :
    Vm.invoke exec0 vmWithFooNative [] camFooBar none []
      = (.ok (some (.Int 42)), vmWithFooNative, [])
    ∧ Vm.invoke exec0 (Vm.new clock0) [] camFooBar none []
      = (.error .NotImplemented, Vm.new clock0, []) := by
  constructor
  · have h := (invoke_native_dispatch exec0 vmWithFooNative [] camFooBar none [] rfl).1
      (NativeImpl.pureResult (some (.Int 42))) rfl
    exact h.trans rfl
  · exact ((invoke_native_dispatch exec0 (Vm.new clock0) [] camFooBar none [] rfl).2 rfl).1

/-- C9: when the class resolves but carries no method with the requested
name and descriptor, `Vm::resolve_class_method` fails with
`ClassNotFoundException` carrying the class name — there is no distinct
method-not-found error kind on this path. -/
theorem missing_method_reports_class_not_found (execute : ExecuteFn)
    (vm : Vm) (stack : CallStack) (className methodName descriptor : String)
    (cls : Class) (vm1 : Vm) (stack1 : CallStack)
    (hres : Vm.getOrResolveClass execute vm stack className = (.ok cls, vm1, stack1))
    (hmethod : cls.findMethod methodName descriptor = none) :
    Vm.resolveClassMethod execute vm stack className methodName descriptor =
      (.error (.ClassNotFoundException className), vm1, stack1) := by
  simp [Vm.resolveClassMethod, hres, hmethod]

theorem missing_method_reports_class_not_found_witness :
    Vm.resolveClassMethod exec0 vmWithSimple [] simpleName missingMethodName
        voidDescriptor
      = (.error (.ClassNotFoundException simpleName), vmAfterSimple, []) :=
  missing_method_reports_class_not_found exec0 vmWithSimple [] simpleName
    missingMethodName voidDescriptor simpleClass vmAfterSimple [] rfl rfl

/-- C10: invoking the built-in diagnostic print native with an empty
argument list is an internal `ValidationException` failure that leaves the
`printed` buffer unchanged; with a non-empty argument list it appends
exactly the first argument (ignoring the rest) to the buffer and returns
no value. -/
theorem temp_print_appends_first_argument (execute : ExecuteFn) (vm : Vm)
    (stack : CallStack) (cam : ClassAndMethod) (obj : Option ObjectRef)
    (hnative : cam.method.isNative = true)
    (hlookup : vm.nativeMethodsRegistry.getMethod cam = some .tempPrint) :
    (Vm.invoke execute vm stack cam obj [] = (.error .ValidationException, vm, stack)
      ∧ (Vm.invoke execute vm stack cam obj []).2.1.printed = vm.printed)
    ∧ ∀ (a : Value) (rest : List Value),
        Vm.invoke execute vm stack cam obj (a :: rest) =
          (.ok none, { vm with printed := vm.printed ++ [a] }, stack) := by
  refine ⟨⟨?_, ?_⟩, ?_⟩
  · simp [Vm.invoke, hnative, hlookup, runNative]
  · simp [Vm.invoke, hnative, hlookup, runNative]
  · intro a rest
    simp [Vm.invoke, hnative, hlookup, runNative]

theorem temp_print_appends_first_argument_witness :
    (Vm.invoke exec0 (Vm.new clock0) [] camTempPrint none []
        = (.error .ValidationException, Vm.new clock0, [])
      ∧ (Vm.invoke exec0 (Vm.new clock0) [] camTempPrint none []).2.1.printed
        = (Vm.new clock0).printed)
    ∧ ∀ (a : Value) (rest : List Value),
        Vm.invoke exec0 (Vm.new clock0) [] camTempPrint none (a :: rest)
          = (.ok none,
             { Vm.new clock0 with printed := (Vm.new clock0).printed ++ [a] }, []) :=
  temp_print_appends_first_argument exec0 (Vm.new clock0) [] camTempPrint none rfl rfl

/-- C2: the loop body of first-time class initialization allocates the
static instance, inserts it into the static table under the class's id,
and only then invokes `<clinit>` (looked up by name `"<clinit>"` and
descriptor `"()V"`) as an ordinary method call: the state the `<clinit>`
invocation starts from already maps the class id to the fresh static
instance, whose every field reads as the zero/`Null` default of its
declared type; the batch loop applies this body to each batch element in
order. -/
theorem statics_registered_before_clinit (execute : ExecuteFn) (vm : Vm)
    (stack : CallStack) (c : Class) :
    ∃ (staticRef : ObjectRef) (vmReady : Vm),
      Vm.initClass execute vm stack c =
        (match c.findMethod clinitName voidDescriptor with
         | some m =>
           (fun t => ((t.1).map fun _ => (), t.2.1, t.2.2))
             (Vm.invoke execute vmReady stack ⟨c, m⟩ none [])
         | none => (.ok (), vmReady, stack))
      ∧ vmReady.getStaticInstance c.id = some staticRef
      ∧ vmReady.heapGet staticRef = some (ObjectValue.new c)
      ∧ (∀ index : Nat, (ObjectValue.new c).getField index =
          (c.fieldAtIndex index).map fun f => zeroFieldValue f.typeDescriptor)
      ∧ (∀ rest : List Class, Vm.initClasses execute vm stack (c :: rest) =
          match Vm.initClass execute vm stack c with
          | (.ok _, vm1, stack1) => Vm.initClasses execute vm1 stack1 rest
          | (.error e, vm1, stack1) => (.error e, vm1, stack1))
      ∧ (∀ (className : String) (toInit : ClassesToInit) (cm1 : ClassManager),
          vm.classManager.getOrResolveClass className = .ok (.newClass toInit, cm1) →
          Vm.getOrResolveClass execute vm stack className =
            (match Vm.initClasses execute { vm with classManager := cm1 } stack
                toInit.classes with
             | (.ok _, vm2, stack2) => (.ok toInit.resolvedClass, vm2, stack2)
             | (.error e, vm2, stack2) => (.error e, vm2, stack2))) := by
  refine ⟨⟨vm.objectAllocator.length, c.id⟩,
    { vm with
        objectAllocator := vm.objectAllocator ++ [ObjectValue.new c]
        statics := (c.id, ⟨vm.objectAllocator.length, c.id⟩) :: vm.statics },
    ?_, ?_, ?_, ?_, ?_, ?_⟩
  · cases hm : c.findMethod clinitName voidDescriptor with
    | some m => simp [Vm.initClass, Vm.newObjectOfClass, hm]
    | none => simp [Vm.initClass, Vm.newObjectOfClass, hm]
  · show ((((c.id, (⟨vm.objectAllocator.length, c.id⟩ : ObjectRef)) :: vm.statics).find?
      fun p => p.1 == c.id).map Prod.snd) = _
    rw [List.find?_cons_of_pos _ (by simp)]
    rfl
  · show (vm.objectAllocator ++ [ObjectValue.new c]).get? vm.objectAllocator.length
      = some (ObjectValue.new c)
    exact List.get?_concat_length vm.objectAllocator (ObjectValue.new c)
  · exact fun index => object_new_getField c index
  · intro rest
    rfl
  · intro className toInit cm1 hres
    unfold Vm.getOrResolveClass
    rw [hres]
    rfl

theorem runNative_preserves_class_manager (impl : NativeImpl) (vm : Vm)
    (stack : CallStack) (cam : ClassAndMethod) (obj : Option ObjectRef)
    (args : List Value) :
    ((runNative impl vm stack cam obj args).2.1).classManager = vm.classManager := by
  cases impl <;> cases args <;> rfl

theorem invoke_preserves_class_manager (execute : ExecuteFn)
    (havail : ∀ f vm st, ((execute f vm st).2.1).classManager.available
        = vm.classManager.available)
    (hloaded : ∀ f vm st x, x ∈ vm.classManager.loadedIds →
        x ∈ ((execute f vm st).2.1).classManager.loadedIds)
    (vm : Vm) (stack : CallStack) (cam : ClassAndMethod)
    (obj : Option ObjectRef) (args : List Value) :
    ((Vm.invoke execute vm stack cam obj args).2.1).classManager.available
        = vm.classManager.available
    ∧ ∀ x, x ∈ vm.classManager.loadedIds →
        x ∈ ((Vm.invoke execute vm stack cam obj args).2.1).classManager.loadedIds := by
  by_cases hn : cam.method.isNative = true
  · cases hl : vm.nativeMethodsRegistry.getMethod cam with
    | none => simp [Vm.invoke, hn, hl]
    | some impl =>
      have hcm := runNative_preserves_class_manager impl vm stack cam obj args
      constructor
      · simp only [Vm.invoke, hn, if_true, hl]
        rw [hcm]
      · intro x hx
        simp only [Vm.invoke, hn, if_true, hl]
        rw [hcm]
        exact hx
  · have hn2 : cam.method.isNative = false := by
      cases hb : cam.method.isNative
      · rfl
      · exact absurd hb hn
    cases ha : stack.addFrame cam obj args with
    | error e => simp [Vm.invoke, hn2, ha]
    | ok pr =>
      obtain ⟨frame, stack1⟩ := pr
      have h1 := havail frame vm stack1
      have h2 := hloaded frame vm stack1
      cases hpp : CallStack.popFrame (execute frame vm stack1).2.2 with
      | error e =>
        constructor
        · simp [Vm.invoke, hn2, ha, hpp, h1]
        · intro x hx
          simp [Vm.invoke, hn2, ha, hpp]
          exact h2 x hx
      | ok st3 =>
        constructor
        · simp [Vm.invoke, hn2, ha, hpp, h1]
        · intro x hx
          simp [Vm.invoke, hn2, ha, hpp]
          exact h2 x hx

theorem initClass_preserves_class_manager (execute : ExecuteFn)
    (havail : ∀ f vm st, ((execute f vm st).2.1).classManager.available
        = vm.classManager.available)
    (hloaded : ∀ f vm st x, x ∈ vm.classManager.loadedIds →
        x ∈ ((execute f vm st).2.1).classManager.loadedIds)
    (vm : Vm) (stack : CallStack) (c : Class) :
    ((Vm.initClass execute vm stack c).2.1).classManager.available
        = vm.classManager.available
    ∧ ∀ x, x ∈ vm.classManager.loadedIds →
        x ∈ ((Vm.initClass execute vm stack c).2.1).classManager.loadedIds := by
  cases hm : c.findMethod clinitName voidDescriptor with
  | none => simp [Vm.initClass, Vm.newObjectOfClass, hm]
  | some m =>
    have h := invoke_preserves_class_manager execute havail hloaded
      { vm with
          objectAllocator := vm.objectAllocator ++ [ObjectValue.new c]
          statics := (c.id, ⟨vm.objectAllocator.length, c.id⟩) :: vm.statics }
      stack ⟨c, m⟩ none []
    constructor
    · simp only [Vm.initClass, Vm.newObjectOfClass, hm]
      exact h.1
    · intro x hx
      simp only [Vm.initClass, Vm.newObjectOfClass, hm]
      exact h.2 x hx

theorem initClasses_preserves_class_manager (execute : ExecuteFn)
    (havail : ∀ f vm st, ((execute f vm st).2.1).classManager.available
        = vm.classManager.available)
    (hloaded : ∀ f vm st x, x ∈ vm.classManager.loadedIds →
        x ∈ ((execute f vm st).2.1).classManager.loadedIds) :
    ∀ (batch : List Class) (vm : Vm) (stack : CallStack),
      ((Vm.initClasses execute vm stack batch).2.1).classManager.available
          = vm.classManager.available
      ∧ ∀ x, x ∈ vm.classManager.loadedIds →
          x ∈ ((Vm.initClasses execute vm stack batch).2.1).classManager.loadedIds := by
  intro batch
  induction batch with
  | nil => intro vm stack; exact ⟨rfl, fun x hx => hx⟩
  | cons c rest ih =>
    intro vm stack
    have hc := initClass_preserves_class_manager execute havail hloaded vm stack c
    rcases hi : Vm.initClass execute vm stack c with ⟨r, vm1, stack1⟩
    rw [hi] at hc
    cases r with
    | error e =>
      constructor
      · simp [Vm.initClasses, hi]
        exact hc.1
      · intro x hx
        simp [Vm.initClasses, hi]
        exact hc.2 x hx
    | ok u =>
      have hrest := ih vm1 stack1
      constructor
      · simp only [Vm.initClasses, hi]
        exact hrest.1.trans hc.1
      · intro x hx
        simp only [Vm.initClasses, hi]
        exact hrest.2 x (hc.2 x hx)

theorem cm_resolve_inversion (cm : ClassManager) (className : String)
    (resolved : ResolvedClass) (cm1 : ClassManager)
    (h : cm.getOrResolveClass className = .ok (resolved, cm1)) :
    ∃ c0, cm.available.find? (fun cc => cc.name == className) = some c0
      ∧ ((c0.id ∈ cm.loadedIds ∧ resolved = .alreadyLoaded c0 ∧ cm1 = cm)
        ∨ (c0.id ∉ cm.loadedIds
            ∧ resolved = .newClass ⟨c0, initBatchFor cm.loadedIds c0⟩
            ∧ cm1 = { cm with loadedIds :=
                cm.loadedIds ++ (initBatchFor cm.loadedIds c0).map Class.id })) := by
  unfold ClassManager.getOrResolveClass at h
  cases hfind : cm.available.find? fun cc => cc.name == className with
  | none =>
    simp only [hfind] at h
    exact Except.noConfusion h
  | some c0 =>
    simp only [hfind] at h
    refine ⟨c0, rfl, ?_⟩
    by_cases hmem : c0.id ∈ cm.loadedIds
    · rw [if_pos hmem] at h
      injection h with hpr
      injection hpr with h1 h2
      exact Or.inl ⟨hmem, h1.symm, h2.symm⟩
    · rw [if_neg hmem] at h
      injection h with hpr
      injection hpr with h1 h2
      exact Or.inr ⟨hmem, h1.symm, h2.symm⟩

theorem cm_resolve_already (cm : ClassManager) (className : String) (c0 : Class)
    (hfind : cm.available.find? (fun cc => cc.name == className) = some c0)
    (hmem : c0.id ∈ cm.loadedIds) :
    cm.getOrResolveClass className = .ok (.alreadyLoaded c0, cm) := by
  unfold ClassManager.getOrResolveClass
  simp only [hfind]
  rw [if_pos hmem]

theorem vm_resolve_already (execute : ExecuteFn) (vm : Vm) (stack : CallStack)
    (className : String) (c0 : Class)
    (h : vm.classManager.getOrResolveClass className
      = .ok (.alreadyLoaded c0, vm.classManager)) :
    Vm.getOrResolveClass execute vm stack className = (.ok c0, vm, stack) := by
  unfold Vm.getOrResolveClass
  rw [h]
  rfl

/-- C3: (a) the initialization batch reported for a first resolution ends
with the requested class and contains every not-yet-initialized ancestor
strictly before it (given that the loaded set is closed under ancestors
along the chain), and the loop processes the batch in that order; (b) a
second resolution of an already-resolved class returns the same class and
changes nothing — no `<clinit>` runs again, so `<clinit>` is invoked at
most once per class per VM; (c) when initializing one batch element fails,
the later elements are abandoned and the failure is propagated. Stated
over any frame-execution collaborator that preserves the class path and
never forgets loaded classes. -/
theorem class_init_order_once_and_abandonment (execute : ExecuteFn)
    (havail : ∀ f vm st, ((execute f vm st).2.1).classManager.available
        = vm.classManager.available)
    (hloaded : ∀ f vm st x, x ∈ vm.classManager.loadedIds →
        x ∈ ((execute f vm st).2.1).classManager.loadedIds) :
    (∀ (loadedIds : List ClassId) (c : Class),
        (initBatchFor loadedIds c).getLast? = some c
        ∧ ∀ a ∈ c.properAncestors,
            (∀ x, x ∈ c.properAncestors → x.id ∈ loadedIds →
              ∀ b, b ∈ x.properAncestors → b.id ∈ loadedIds) →
            a.id ∉ loadedIds →
            a ∈ (initBatchFor loadedIds c).dropLast)
    ∧ (∀ (vm : Vm) (stack : CallStack) (className : String) (c : Class)
          (vm1 : Vm) (stack1 : CallStack),
        Vm.getOrResolveClass execute vm stack className = (.ok c, vm1, stack1) →
        ∀ stack2 : CallStack,
          Vm.getOrResolveClass execute vm1 stack2 className = (.ok c, vm1, stack2))
    ∧ (∀ (vm : Vm) (stack : CallStack) (pre : List Class) (cbad : Class)
          (post : List Class) (e : VmError) (vm1 vm2 : Vm)
          (stack1 stack2 : CallStack),
        Vm.initClasses execute vm stack pre = (.ok (), vm1, stack1) →
        Vm.initClass execute vm1 stack1 cbad = (.error e, vm2, stack2) →
        Vm.initClasses execute vm stack (pre ++ cbad :: post)
          = (.error e, vm2, stack2)) := by
  refine ⟨?_, ?_, ?_⟩
  · intro loadedIds c
    exact ⟨initBatchFor_getLast loadedIds c,
      fun a hmem hclosed hnot =>
        mem_dropLast_initBatchFor loadedIds c a hmem hclosed hnot⟩
  · intro vm stack className c vm1 stack1 hres stack2
    cases hcm : vm.classManager.getOrResolveClass className with
    | error e =>
      unfold Vm.getOrResolveClass at hres
      rw [hcm] at hres
      exact absurd hres (by simp)
    | ok pr =>
      obtain ⟨resolved, cm1⟩ := pr
      unfold Vm.getOrResolveClass at hres
      rw [hcm] at hres
      obtain ⟨c0, hfind, hcase⟩ := cm_resolve_inversion _ _ _ _ hcm
      rcases hcase with ⟨hmem, hres0, hcm1⟩ | ⟨hmem, hres0, hcm1⟩
      · subst hres0
        subst hcm1
        simp only [ResolvedClass.getClass, Prod.mk.injEq, Except.ok.injEq] at hres
        obtain ⟨hc, hvm, hstack⟩ := hres
        subst hc
        have hv : vm = vm1 := hvm
        subst hv
        exact vm_resolve_already execute vm stack2 className c0
          (cm_resolve_already _ _ _ hfind hmem)
      · subst hres0
        subst hcm1
        simp only [ResolvedClass.getClass] at hres
        rcases hinit : Vm.initClasses execute
            { vm with classManager := { vm.classManager with loadedIds :=
                vm.classManager.loadedIds
                  ++ (initBatchFor vm.classManager.loadedIds c0).map Class.id } }
            stack (initBatchFor vm.classManager.loadedIds c0)
          with ⟨r, vmB, stackB⟩
        rw [hinit] at hres
        cases r with
        | error e =>
          exact absurd hres (by simp)
        | ok u =>
          simp only [Prod.mk.injEq, Except.ok.injEq] at hres
          obtain ⟨hc, hvm, hstack⟩ := hres
          subst hc
          subst hvm
          have hpres := initClasses_preserves_class_manager execute havail hloaded
            (initBatchFor vm.classManager.loadedIds c0)
            { vm with classManager := { vm.classManager with loadedIds :=
                vm.classManager.loadedIds
                  ++ (initBatchFor vm.classManager.loadedIds c0).map Class.id } }
            stack
          rw [hinit] at hpres
          have hfind2 : vmB.classManager.available.find?
              (fun cc => cc.name == className) = some c0 := by
            have hava : vmB.classManager.available = vm.classManager.available :=
              hpres.1
            rw [hava]
            exact hfind
          have hmem2 : c0.id ∈ vmB.classManager.loadedIds := by
            refine hpres.2 c0.id ?_
            show c0.id ∈ vm.classManager.loadedIds
              ++ (initBatchFor vm.classManager.loadedIds c0).map Class.id
            exact List.mem_append_right _
              (List.mem_map_of_mem Class.id
                (self_mem_initBatchFor vm.classManager.loadedIds c0))
          exact vm_resolve_already execute vmB stack2 className c0
            (cm_resolve_already _ _ _ hfind2 hmem2)
  · intro vm stack pre
    induction pre generalizing vm stack with
    | nil =>
      intro cbad post e vm1 vm2 stack1 stack2 hpre hbad
      simp only [Vm.initClasses, Prod.mk.injEq, Except.ok.injEq] at hpre
      obtain ⟨_, hvm, hstack⟩ := hpre
      subst hvm
      subst hstack
      simp only [List.nil_append, Vm.initClasses, hbad]
    | cons p pre2 ih =>
      intro cbad post e vm1 vm2 stack1 stack2 hpre hbad
      rcases hi : Vm.initClass execute vm stack p with ⟨r, vmp, stackp⟩
      cases r with
      | error e2 =>
        rw [Vm.initClasses, hi] at hpre
        exact absurd hpre (by simp)
      | ok u =>
        rw [Vm.initClasses, hi] at hpre
        have hgoal := ih vmp stackp cbad post e vm1 vm2 stack1 stack2 hpre hbad
        rw [List.cons_append, Vm.initClasses, hi]
        exact hgoal

theorem class_init_order_once_and_abandonment_witness :
    parentClass ∈ (initBatchFor [] childClass).dropLast
    ∧ (initBatchFor [] childClass).getLast? = some childClass
    ∧ Vm.getOrResolveClass exec0 vmAfterChild [] childName
        = (.ok childClass, vmAfterChild, [])
    ∧ Vm.initClasses exec0 (Vm.new clock0) [] ([] ++ badClass :: [afterClass])
        = (.error VmError.NotImplemented, vmAfterBad, []) := by
  have h := class_init_order_once_and_abandonment exec0
    (fun _ _ _ => rfl) (fun _ _ _ _ hx => hx)
  refine ⟨?_, ?_, ?_, ?_⟩
  · refine (h.1 [] childClass).2 parentClass ?_ ?_ ?_
    · show parentClass ∈ parentClass :: Class.properAncestors parentClass
      exact List.mem_cons_self _ _
    · intro x hx hmem
      exact absurd hmem (List.not_mem_nil _)
    · exact List.not_mem_nil _
  · exact (h.1 [] childClass).1
  · exact h.2.1 vmWithChild [] childName childClass vmAfterChild [] rfl []
  · exact h.2.2 (Vm.new clock0) [] [] badClass [afterClass] VmError.NotImplemented
      (Vm.new clock0) vmAfterBad [] [] rfl rfl

end Rjvm

